import Mathlib

/-!
Verification development for the open-operator session/action core.

The embedding mirrors two source files:
- `sessionManager.ts` : the session registry (`createSession`, `endSession`,
  `getDebugInfo`, `getSession`) over an in-memory map from session id to
  `Session { browser, context, page }`.
- `playwrightRunner.ts` : the action dispatcher `runPlaywright`, with its
  method switch, missing-instruction checks, ACT parsing, and the catch-all
  teardown handler.

External collaborators (the playwright driver, uuid generation) are modeled
as an environment `Env` of oracle functions: each primitive call either
succeeds with a value or throws a `JsError`. Handles (browser, context,
page) are abstract naturals supplied by the environment. Every operation
returns, besides its JS-level result and the updated registry state, the
trace of external primitive invocations it performed, so that claims about
"before any primitive is invoked" or "exactly one primitive interaction"
can be stated precisely.
-/

namespace OpenOperator

/-- One session record, as stored in the registry map of sessionManager.ts:
`{ browser, context, page }` with each handle abstracted to a natural. -/
structure Session where
  browser : Nat
  context : Nat
  page : Nat
deriving DecidableEq, Repr

/-- The registry state: the in-memory `sessions` Map, as an insertion-ordered
association list from session id to `Session`. -/
abbrev St := List (String × Session)

/-- Errors thrown at the JS level. `typeError` models the TypeError raised by
destructuring `undefined` (the dispatcher on an unknown id); `error` models
`throw new Error(msg)` with the literal message; `primitive` models a failure
surfaced by an external playwright primitive, tagged by an opaque code. -/
inductive JsError where
  | typeError (msg : String)
  | error (msg : String)
  | primitive (code : Nat)
deriving DecidableEq, Repr

/-- Trace events: one per external primitive invocation, plus a marker for
each call of the registry function `endSession`. -/
inductive Ev where
  | launch
  | newContext (browser : Nat)
  | newPage (context : Nat)
  | goto (page : Nat) (url : String)
  | click (page : Nat) (selector : String)
  | fill (page : Nat) (selector : Option String) (text : String)
  | evalText (page : Nat) (selector : String)
  | waitForSelector (page : Nat) (selector : String)
  | screenshot (page : Nat)
  | waitForTimeout (page : Nat) (arg : String)
  | goBack (page : Nat)
  | contextClose (context : Nat)
  | browserClose (browser : Nat)
  | endSessionCall (id : String)
deriving DecidableEq, Repr

/-- The dispatcher's `Method` union type from playwrightRunner.ts. -/
inductive Method where
  | GOTO
  | ACT
  | EXTRACT
  | OBSERVE
  | CLOSE
  | SCREENSHOT
  | WAIT
  | NAVBACK
deriving DecidableEq, Repr

/-- The dispatcher's JS return value (`Promise<any>` resolved): `undef` for
the `break` paths, the nullable extracted text for EXTRACT, the
`{ observed }` object for OBSERVE, the base64 string for SCREENSHOT. -/
inductive RVal where
  | undef
  | text (t : Option String)
  | observed (selector : String)
  | shot (b64 : String)
deriving DecidableEq, Repr

/-- Oracle outcomes for everything outside the repository: uuid generation
and each playwright primitive. A field application either yields the
primitive's value or the `JsError` it throws. -/
structure Env where
  uuid : String
  launch : Except JsError Nat
  newContext : Nat → Except JsError Nat
  newPage : Nat → Except JsError Nat
  goto : Nat → String → Except JsError Unit
  click : Nat → String → Except JsError Unit
  fill : Nat → Option String → String → Except JsError Unit
  evalText : Nat → String → Except JsError (Option String)
  waitForSelector : Nat → String → Except JsError Unit
  screenshot : Nat → Except JsError String
  waitForTimeout : Nat → String → Except JsError Unit
  goBack : Nat → Except JsError Unit
  contextClose : Nat → Except JsError Unit
  browserClose : Nat → Except JsError Unit

/-- `Map.prototype.get`, on the association-list model. -/
def mapGet (m : St) (k : String) : Option Session :=
  (m.find? fun p => p.1 == k).map Prod.snd

/-- `Map.prototype.set`: replaces in place when the key exists, otherwise
appends (JS Maps preserve insertion order). -/
def mapSet (m : St) (k : String) (v : Session) : St :=
  if m.any (fun p => p.1 == k) then
    m.map fun p => if p.1 == k then (k, v) else p
  else
    m ++ [(k, v)]

/-- `Map.prototype.delete`, keeping all entries whose key differs. -/
def mapDelete (m : St) (k : String) : St :=
  m.filter fun p => p.1 != k

/-- Character-list core of JS `String.prototype.startsWith` (the string
operations are carried out on `List Char`, where evaluation is by
structural recursion; Lean's own byte-position-based `String` functions are
avoided). -/
def listStartsWith : List Char → List Char → Bool
  | _, [] => true
  | [], _ :: _ => false
  | a :: as, b :: bs => a == b && listStartsWith as bs

/-- Character-list core of JS `String.prototype.replace` with a
plain-string pattern: replaces only the first occurrence. -/
def listReplaceFirst (pat rep : List Char) : List Char → List Char
  | [] => if pat.isEmpty then rep else []
  | c :: rest =>
    if listStartsWith (c :: rest) pat then rep ++ (c :: rest).drop pat.length
    else c :: listReplaceFirst pat rep rest

/-- The whitespace characters stripped by JS `String.prototype.trim`
(ASCII portion). -/
def isJsSpace (c : Char) : Bool :=
  c == ' ' || c == '\t' || c == '\n' || c == '\r'

/-- Character-list core of JS `String.prototype.trim`. -/
def listTrim (s : List Char) : List Char :=
  ((s.dropWhile isJsSpace).reverse.dropWhile isJsSpace).reverse

/-- Character-list core of JS `String.prototype.split` with a one-character
separator: `"a  b".split(" ")` keeps the empty middle group, `"".split(" ")`
is `[""]`. -/
def listSplitOnChar (sep : Char) : List Char → List (List Char)
  | [] => [[]]
  | c :: rest =>
    let r := listSplitOnChar sep rest
    if c == sep then [] :: r
    else
      match r with
      | [] => [[c]]
      | g :: gs => (c :: g) :: gs

/-- JS `s.startsWith(pat)`. -/
def jsStartsWith (s pat : String) : Bool :=
  listStartsWith s.data pat.data

/-- JS `s.replace(pat, rep)` (first occurrence only). -/
def jsReplaceFirst (s pat rep : String) : String :=
  String.mk (listReplaceFirst pat.data rep.data s.data)

/-- JS `s.trim()`. -/
def jsTrim (s : String) : String :=
  String.mk (listTrim s.data)

/-- JS `s.split(" ")`. -/
def jsSplitOnSpace (s : String) : List String :=
  (listSplitOnChar ' ' s.data).map String.mk

/-- JS `parts.join(" ")`. -/
def jsJoinSpace (l : List String) : String :=
  String.mk (List.intercalate [' '] (l.map String.data))

/-- JS falsiness of the optional `instruction` parameter: `!instruction` is
true exactly when the argument is `undefined` or the empty string. -/
def instrFalsy : Option String → Bool
  | none => true
  | some s => s == ""

/-- sessionManager.ts `getSession`: pure lookup in the sessions map,
returning `undefined` (here `none`) when absent, never throwing. -/
def getSession (st : St) (sessionId : String) : Option Session :=
  mapGet st sessionId

/-- sessionManager.ts `createSession`: generates an id via uuidv4, launches a
browser, opens a context and a page (each step may throw, aborting the
rest), then registers the record and returns the id. -/
def createSession (env : Env) (st : St) :
    Except JsError String × St × List Ev :=
  let sessionId := env.uuid
  match env.launch with
  | .error e => (.error e, st, [.launch])
  | .ok browser =>
    match env.newContext browser with
    | .error e => (.error e, st, [.launch, .newContext browser])
    | .ok context =>
      match env.newPage context with
      | .error e => (.error e, st, [.launch, .newContext browser, .newPage context])
      | .ok page =>
        (.ok sessionId,
         mapSet st sessionId { browser := browser, context := context, page := page },
         [.launch, .newContext browser, .newPage context])

/-- sessionManager.ts `endSession`: if the id is absent, does nothing; if
present, awaits `context.close()` then `browser.close()` (a throw from
either propagates and skips the rest), and only then deletes the entry. -/
def endSession (env : Env) (st : St) (sessionId : String) :
    Except JsError Unit × St × List Ev :=
  match mapGet st sessionId with
  | none => (.ok (), st, [.endSessionCall sessionId])
  | some session =>
    match env.contextClose session.context with
    | .error e =>
      (.error e, st, [.endSessionCall sessionId, .contextClose session.context])
    | .ok _ =>
      match env.browserClose session.browser with
      | .error e =>
        (.error e, st,
         [.endSessionCall sessionId, .contextClose session.context,
          .browserClose session.browser])
      | .ok _ =>
        (.ok (), mapDelete st sessionId,
         [.endSessionCall sessionId, .contextClose session.context,
          .browserClose session.browser])

/-- The optional screenshot record returned by `getDebugInfo`. -/
structure DebugInfo where
  screenshot : Option String
deriving DecidableEq, Repr

/-- sessionManager.ts `getDebugInfo`: screenshots the page of a present
session, returns `{}` when the session is absent. -/
def getDebugInfo (env : Env) (st : St) (sessionId : String) :
    Except JsError DebugInfo × St × List Ev :=
  match mapGet st sessionId with
  | some session =>
    match env.screenshot session.page with
    | .error e => (.error e, st, [.screenshot session.page])
    | .ok shot => (.ok { screenshot := some shot }, st, [.screenshot session.page])
  | none => (.ok { screenshot := none }, st, [])

/-- The literal message of the missing-instruction `throw` for each method
that checks `!instruction` in the dispatcher's switch. -/
def missingMsg : Method → Option String
  | .GOTO => some "Missing URL in instruction"
  | .ACT => some "Missing action instruction"
  | .EXTRACT => some "Missing extraction instruction"
  | .OBSERVE => some "Missing observation instruction"
  | .WAIT => some "Missing wait duration"
  | _ => none

/-- The methods whose switch case begins with an `if (!instruction) throw`. -/
def requiresInstruction (m : Method) : Bool :=
  (missingMsg m).isSome

/-- The body of the dispatcher's `try` block: the switch over `method`,
operating on the resolved session's page (and, for CLOSE, calling
`endSession`). Returns the JS result or thrown error, the updated registry
state, and the trace of primitive invocations performed inside the block. -/
def tryPhase (env : Env) (st : St) (sessionID : String) (page : Nat)
    (method : Method) (instruction : Option String) :
    Except JsError RVal × St × List Ev :=
  match method with
  | .GOTO =>
    if instrFalsy instruction then
      (.error (.error "Missing URL in instruction"), st, [])
    else
      let url := instruction.getD ""
      match env.goto page url with
      | .error e => (.error e, st, [.goto page url])
      | .ok _ => (.ok .undef, st, [.goto page url])
  | .ACT =>
    if instrFalsy instruction then
      (.error (.error "Missing action instruction"), st, [])
    else
      let instr := instruction.getD ""
      if jsStartsWith instr "click" then
        let selector := jsTrim (jsReplaceFirst instr "click" "")
        match env.click page selector with
        | .error e => (.error e, st, [.click page selector])
        | .ok _ => (.ok .undef, st, [.click page selector])
      else if jsStartsWith instr "type" then
        let parts := jsSplitOnSpace instr
        let selector := parts[1]?
        let text := jsJoinSpace (parts.drop 2)
        match env.fill page selector text with
        | .error e => (.error e, st, [.fill page selector text])
        | .ok _ => (.ok .undef, st, [.fill page selector text])
      else
        (.ok .undef, st, [])
  | .EXTRACT =>
    if instrFalsy instruction then
      (.error (.error "Missing extraction instruction"), st, [])
    else
      let sel := instruction.getD ""
      match env.evalText page sel with
      | .error e => (.error e, st, [.evalText page sel])
      | .ok t => (.ok (.text t), st, [.evalText page sel])
  | .OBSERVE =>
    if instrFalsy instruction then
      (.error (.error "Missing observation instruction"), st, [])
    else
      let sel := instruction.getD ""
      match env.waitForSelector page sel with
      | .error e => (.error e, st, [.waitForSelector page sel])
      | .ok _ => (.ok (.observed sel), st, [.waitForSelector page sel])
  | .SCREENSHOT =>
    match env.screenshot page with
    | .error e => (.error e, st, [.screenshot page])
    | .ok b64 => (.ok (.shot b64), st, [.screenshot page])
  | .WAIT =>
    if instrFalsy instruction then
      (.error (.error "Missing wait duration"), st, [])
    else
      let instr := instruction.getD ""
      match env.waitForTimeout page instr with
      | .error e => (.error e, st, [.waitForTimeout page instr])
      | .ok _ => (.ok .undef, st, [.waitForTimeout page instr])
  | .NAVBACK =>
    match env.goBack page with
    | .error e => (.error e, st, [.goBack page])
    | .ok _ => (.ok .undef, st, [.goBack page])
  | .CLOSE =>
    match endSession env st sessionID with
    | (.error e, st1, evs) => (.error e, st1, evs)
    | (.ok _, st1, evs) => (.ok .undef, st1, evs)

/-- playwrightRunner.ts `runPlaywright`: destructures the session out of
`getSession(sessionID)` (throwing the destructuring TypeError when the
lookup is `undefined` — the condition the design calls
SessionNotFoundError; it happens before the `try` block), then runs the
switch inside the `try`; on any thrown error, the catch handler awaits
`endSession(sessionID)` and rethrows the original error (a throw from the
catch-phase `endSession` itself propagates instead). -/
def runPlaywright (env : Env) (st : St) (sessionID : String) (method : Method)
    (instruction : Option String) : Except JsError RVal × St × List Ev :=
  match getSession st sessionID with
  | none =>
    (.error (.typeError "Cannot destructure property page of undefined"), st, [])
  | some sess =>
    match tryPhase env st sessionID sess.page method instruction with
    | (.ok v, st1, evs1) => (.ok v, st1, evs1)
    | (.error err, st1, evs1) =>
      match endSession env st1 sessionID with
      | (.error e2, st2, evs2) => (.error e2, st2, evs1 ++ evs2)
      | (.ok _, st2, evs2) => (.error err, st2, evs1 ++ evs2)

/-- Number of `endSession` invocations recorded in a trace. -/
def countEndCalls : List Ev → Nat
  | [] => 0
  | .endSessionCall _ :: rest => countEndCalls rest + 1
  | _ :: rest => countEndCalls rest

/-- A registry operation, paired with the oracle outcomes of the external
calls it performs; used to state the registry invariant over arbitrary
operation sequences. -/
inductive Op where
  | create (env : Env)
  | endS (env : Env) (id : String)
  | getS (id : String)
  | debug (env : Env) (id : String)

/-- The registry state reached after one operation. -/
def runOp (st : St) : Op → St
  | .create env => (createSession env st).2.1
  | .endS env id => (endSession env st id).2.1
  | .getS _ => st
  | .debug env id => (getDebugInfo env st id).2.1

/-- The registry state reached after a sequence of operations. -/
def runOps (st : St) (ops : List Op) : St :=
  ops.foldl runOp st

/-- The registry invariant: no two entries share a session id, and no two
entries share a browser handle. -/
def registryInv : St → Bool
  | [] => true
  | q :: rest =>
    rest.all (fun r => r.1 != q.1 && r.2.browser != q.2.browser) && registryInv rest

/-- Freshness of the external outcomes feeding one `createSession` call,
relative to the current registry: uuidv4 yields an unused id and, when the
launch succeeds, the launched browser handle is new. Both are properties of
the external collaborators (random id space, fresh browser process). -/
def freshFor (st : St) (env : Env) : Bool :=
  st.all (fun q => q.1 != env.uuid) &&
    (match env.launch with
     | .ok b => st.all fun q => q.2.browser != b
     | .error _ => true)

/-- The freshness side condition for one operation (trivial except for
`createSession`). -/
def opOk (st : St) : Op → Bool
  | .create env => freshFor st env
  | _ => true

/-- The freshness side condition for a sequence, each operation judged at
the state where it executes. -/
def seqOk : St → List Op → Bool
  | _, [] => true
  | st, op :: ops => opOk st op && seqOk (runOp st op) ops

/-- An environment in which every external call succeeds. -/
def okEnv : Env where
  uuid := "id-1"
  launch := .ok 1
  newContext := fun _ => .ok 2
  newPage := fun _ => .ok 3
  goto := fun _ _ => .ok ()
  click := fun _ _ => .ok ()
  fill := fun _ _ _ => .ok ()
  evalText := fun _ _ => .ok (some "text")
  waitForSelector := fun _ _ => .ok ()
  screenshot := fun _ => .ok "img"
  waitForTimeout := fun _ _ => .ok ()
  goBack := fun _ => .ok ()
  contextClose := fun _ => .ok ()
  browserClose := fun _ => .ok ()

/-- A concrete session record for witnesses. -/
def sess0 : Session :=
  { browser := 1, context := 2, page := 3 }

/-- A registry holding the single live session `"s"`. -/
def st0 : St := [("s", sess0)]

/-- Environment whose `page.goto` fails (an unreachable URL). -/
def gotoFailEnv : Env :=
  { okEnv with goto := fun _ _ => .error (.primitive 7) }

/-- Environment whose `page.goto` and `context.close()` both fail. -/
def bothFailEnv : Env :=
  { okEnv with
    goto := fun _ _ => .error (.primitive 7),
    contextClose := fun _ => .error (.primitive 9) }

/-- Environment whose `context.close()` fails. -/
def closeFailEnv : Env :=
  { okEnv with contextClose := fun _ => .error (.primitive 9) }

/-- Environment whose `context.newPage()` fails. -/
def newPageFailEnv : Env :=
  { okEnv with newPage := fun _ => .error (.primitive 5) }

/-- Environment for a first successful session creation. -/
def envA : Env :=
  { okEnv with
    uuid := "id-A", launch := .ok 10,
    newContext := fun _ => .ok 11, newPage := fun _ => .ok 12 }

/-- Environment for a second successful session creation with fresh
handles. -/
def envB : Env :=
  { okEnv with
    uuid := "id-B", launch := .ok 20,
    newContext := fun _ => .ok 21, newPage := fun _ => .ok 22 }

/-- A concrete operation sequence exercising all four registry entry
points. -/
def opsW : List Op :=
  [.create envA, .create envB, .getS "id-A", .debug envA "id-A", .endS okEnv "id-A"]

theorem mapGet_find_none (st : St) (k : String) (h : mapGet st k = none) :
    st.find? (fun p => p.1 == k) = none := by
  unfold mapGet at h
  cases hx : st.find? (fun p => p.1 == k) with
  | none => rfl
  | some q => rw [hx] at h; simp at h

theorem mapGet_mapDelete (st : St) (k : String) :
    mapGet (mapDelete st k) k = none := by
  induction st with
  | nil => rfl
  | cons q rest ih =>
    by_cases h : q.1 = k
    · rw [mapDelete, List.filter_cons]
      simp only [h, bne_self_eq_false, Bool.false_eq_true, if_false, reduceIte]
      exact ih
    · rw [mapDelete, List.filter_cons]
      have hb : (q.1 != k) = true := by simpa using h
      rw [hb, if_pos rfl]
      rw [mapDelete] at ih
      simp [mapGet, List.find?_cons, h, ih]

theorem mapGet_none_forall (st : St) (k : String) (h : mapGet st k = none) :
    ∀ q ∈ st, q.1 ≠ k := by
  intro q hq
  have := List.find?_eq_none.mp (mapGet_find_none st k h) q hq
  simpa using this

theorem mapGet_eq_none_of_all (st : St) (k : String)
    (h : st.all (fun q => q.1 != k) = true) : mapGet st k = none := by
  have hf : st.find? (fun p => p.1 == k) = none := by
    rw [List.find?_eq_none]
    intro x hx
    have := List.all_eq_true.mp h x hx
    simpa using this
  simp [mapGet, hf]

theorem mapSet_fresh (st : St) (k : String) (v : Session)
    (h : mapGet st k = none) : mapSet st k v = st ++ [(k, v)] := by
  have hall : st.any (fun p => p.1 == k) = false := by
    rw [List.any_eq_false]
    intro x hx
    have := mapGet_none_forall st k h x hx
    simpa using this
  unfold mapSet
  rw [hall]
  simp

theorem mapGet_append_fresh (st : St) (k : String) (v : Session)
    (h : mapGet st k = none) : mapGet (st ++ [(k, v)]) k = some v := by
  have hf := mapGet_find_none st k h
  simp [mapGet, List.find?_append, hf, List.find?]

theorem countEndCalls_append (l1 l2 : List Ev) :
    countEndCalls (l1 ++ l2) = countEndCalls l1 + countEndCalls l2 := by
  induction l1 with
  | nil => simp [countEndCalls]
  | cons e rest ih =>
    cases e
    case endSessionCall id => simp [countEndCalls, ih]; omega
    all_goals simp [countEndCalls, ih]

theorem endSession_one_call (env : Env) (st : St) (id : String) :
    countEndCalls (endSession env st id).2.2 = 1 := by
  rcases h : mapGet st id with _ | sess
  · simp [endSession, h, countEndCalls]
  · rcases hc : env.contextClose sess.context with e | u
    · simp [endSession, h, hc, countEndCalls]
    · rcases hb : env.browserClose sess.browser with e | v <;>
        simp [endSession, h, hc, hb, countEndCalls]

theorem endSession_spec (env : Env) (st : St) (id : String) (sess : Session)
    (h : mapGet st id = some sess) :
    endSession env st id =
      match env.contextClose sess.context with
      | .error e => (.error e, st, [.endSessionCall id, .contextClose sess.context])
      | .ok _ =>
        match env.browserClose sess.browser with
        | .error e =>
          (.error e, st,
           [.endSessionCall id, .contextClose sess.context,
            .browserClose sess.browser])
        | .ok _ =>
          (.ok (), mapDelete st id,
           [.endSessionCall id, .contextClose sess.context,
            .browserClose sess.browser]) := by
  simp only [endSession, h]

theorem tryPhase_state_trace (env : Env) (st : St) (id : String) (page : Nat)
    (method : Method) (instruction : Option String) (hm : method ≠ Method.CLOSE) :
    (tryPhase env st id page method instruction).2.1 = st ∧
    countEndCalls (tryPhase env st id page method instruction).2.2 = 0 := by
  cases method
  case CLOSE => exact absurd rfl hm
  all_goals
    simp only [tryPhase]
    repeat' split
    all_goals exact ⟨rfl, rfl⟩

theorem runPlaywright_err (env : Env) (st : St) (id : String) (sess : Session)
    (method : Method) (instruction : Option String) (e : JsError)
    (st1 : St) (evs1 : List Ev)
    (hs : getSession st id = some sess)
    (htry : tryPhase env st id sess.page method instruction = (.error e, st1, evs1)) :
    runPlaywright env st id method instruction =
      match endSession env st1 id with
      | (.error e2, st2, evs2) => (.error e2, st2, evs1 ++ evs2)
      | (.ok _, st2, evs2) => (.error e, st2, evs1 ++ evs2) := by
  simp only [runPlaywright, hs, htry]

theorem run_err_teardown (env : Env) (st : St) (id : String) (sess : Session)
    (method : Method) (instruction : Option String) (e : JsError) (evs1 : List Ev)
    (hs : getSession st id = some sess)
    (htry : tryPhase env st id sess.page method instruction = (.error e, st, evs1))
    (hcnt : countEndCalls evs1 = 0) :
    countEndCalls (runPlaywright env st id method instruction).2.2 = 1 ∧
    (env.contextClose sess.context = .ok () → env.browserClose sess.browser = .ok () →
      runPlaywright env st id method instruction =
        (.error e, mapDelete st id,
         evs1 ++ [.endSessionCall id, .contextClose sess.context,
                  .browserClose sess.browser]) ∧
      getSession (mapDelete st id) id = none) ∧
    (∀ e2, env.contextClose sess.context = .error e2 →
      runPlaywright env st id method instruction =
        (.error e2, st, evs1 ++ [.endSessionCall id, .contextClose sess.context]) ∧
      getSession st id = some sess) := by
  have hrun := runPlaywright_err env st id sess method instruction e st evs1 hs htry
  have hspec := endSession_spec env st id sess hs
  refine ⟨?_, ?_, ?_⟩
  · rw [hrun]
    rcases hE : endSession env st id with ⟨r2, st2, evs2⟩
    have h1 : countEndCalls evs2 = 1 := by
      have := endSession_one_call env st id
      rw [hE] at this
      exact this
    cases r2 <;> simp [countEndCalls_append, hcnt, h1]
  · intro hc hb
    rw [hspec, hc, hb] at hrun
    exact ⟨hrun, mapGet_mapDelete st id⟩
  · intro e2 hc
    rw [hspec, hc] at hrun
    exact ⟨hrun, hs⟩

/-- Claim C3 is refuted: when the underlying `context.close()` fails,
`endSession` propagates the failure and the registry entry for `"s"` is NOT
removed — the final state still maps `"s"` to its session, so a failing
release does prevent removal. -/
theorem c3_counterexample :
    endSession closeFailEnv st0 "s" =
      (.error (.primitive 9), st0, [.endSessionCall "s", .contextClose 2]) ∧
    getSession ((endSession closeFailEnv st0 "s").2.1) "s" = some sess0 :=
  ⟨rfl, rfl⟩

/-- Claim C3 (amended): for every id present in the registry, `endSession`
removes the entry exactly when both release calls succeed; if the
context-release fails, or the context-release succeeds and the
browser-release fails, the release error propagates and the entry remains
in the registry. -/
theorem c3_release_failure_blocks_removal (env : Env) (st : St) (id : String)
    (sess : Session) (hs : getSession st id = some sess) :
    (env.contextClose sess.context = .ok () → env.browserClose sess.browser = .ok () →
      endSession env st id =
        (.ok (), mapDelete st id,
         [.endSessionCall id, .contextClose sess.context, .browserClose sess.browser]) ∧
      getSession (mapDelete st id) id = none) ∧
    (∀ e, env.contextClose sess.context = .error e →
      endSession env st id =
        (.error e, st, [.endSessionCall id, .contextClose sess.context]) ∧
      getSession st id = some sess) ∧
    (∀ e, env.contextClose sess.context = .ok () → env.browserClose sess.browser = .error e →
      endSession env st id =
        (.error e, st,
         [.endSessionCall id, .contextClose sess.context, .browserClose sess.browser]) ∧
      getSession st id = some sess) := by
  have hspec := endSession_spec env st id sess hs
  refine ⟨?_, ?_, ?_⟩
  · intro hc hb
    rw [hspec, hc, hb]
    exact ⟨rfl, mapGet_mapDelete st id⟩
  · intro e hc
    rw [hspec, hc]
    exact ⟨rfl, hs⟩
  · intro e hc hb
    rw [hspec, hc, hb]
    exact ⟨rfl, hs⟩

/-- Witness for the amended C3 at a concrete input: with both releases
succeeding, `endSession` removes the entry. -/
theorem c3_witness :
    getSession st0 "s" = some sess0 ∧
    endSession okEnv st0 "s" =
      (.ok (), mapDelete st0 "s",
       [.endSessionCall "s", .contextClose 2, .browserClose 1]) :=
  ⟨rfl, ((c3_release_failure_blocks_removal okEnv st0 "s" sess0 rfl).1 rfl rfl).1⟩

/-- Claim C4: on an id absent from the registry, the dispatcher raises (the
destructuring TypeError — the condition the design calls
SessionNotFoundError) before any primitive runs and before any teardown,
while `getSession` on the same id returns the empty result `none` without
raising. -/
theorem c4_absent_id_dispatcher_raises (env : Env) (st : St) (sessionID : String)
    (method : Method) (instruction : Option String)
    (habs : getSession st sessionID = none) :
    runPlaywright env st sessionID method instruction =
      (.error (.typeError "Cannot destructure property page of undefined"), st, []) ∧
    getSession st sessionID = none := by
  refine ⟨?_, habs⟩
  simp only [runPlaywright, habs]

/-- Witness for C4 at a concrete absent id. -/
theorem c4_witness :
    getSession st0 "missing" = none ∧
    (runPlaywright okEnv st0 "missing" .GOTO (some "https://example.com") =
      (.error (.typeError "Cannot destructure property page of undefined"), st0, []) ∧
     getSession st0 "missing" = none) :=
  ⟨rfl, c4_absent_id_dispatcher_raises okEnv st0 "missing" .GOTO
    (some "https://example.com") rfl⟩

/-- Claim C5: `endSession` on an absent id is a non-raising no-op that
leaves the registry unchanged; and whenever `endSession` completes
successfully, the id is afterwards absent and a second `endSession` (under
any environment) is again a non-raising no-op. -/
theorem c5_endSession_idempotent (env env2 : Env) (st : St) (id : String) :
    (getSession st id = none →
      endSession env st id = (.ok (), st, [.endSessionCall id])) ∧
    (∀ st1 evs, endSession env st id = (.ok (), st1, evs) →
      getSession st1 id = none ∧
      endSession env2 st1 id = (.ok (), st1, [.endSessionCall id])) := by
  constructor
  · intro h
    have h2 : mapGet st id = none := h
    simp only [endSession, h2]
  · intro st1 evs h
    rcases hm : mapGet st id with _ | sess
    · simp only [endSession, hm, Prod.mk.injEq] at h
      obtain ⟨-, hst, -⟩ := h
      subst hst
      exact ⟨hm, by simp only [endSession, hm]⟩
    · rcases hc : env.contextClose sess.context with e | u
      · simp [endSession, hm, hc] at h
      · rcases hb : env.browserClose sess.browser with e | v
        · simp [endSession, hm, hc, hb] at h
        · simp only [endSession, hm, hc, hb, Prod.mk.injEq] at h
          obtain ⟨-, hst, -⟩ := h
          subst hst
          refine ⟨mapGet_mapDelete st id, ?_⟩
          simp only [endSession, mapGet_mapDelete st id]

/-- Witness for C5: ending the live session `"s"` succeeds, after which the
lookup is empty and a second `endSession` — even under an environment whose
releases fail — is a no-op. -/
theorem c5_witness :
    endSession okEnv st0 "s" =
      (.ok (), [], [.endSessionCall "s", .contextClose 2, .browserClose 1]) ∧
    getSession ([] : St) "s" = none ∧
    endSession closeFailEnv ([] : St) "s" = (.ok (), [], [.endSessionCall "s"]) := by
  refine ⟨rfl, ?_, ?_⟩
  · exact ((c5_endSession_idempotent okEnv closeFailEnv st0 "s").2 [] _ rfl).1
  · exact ((c5_endSession_idempotent okEnv closeFailEnv st0 "s").2 [] _ rfl).2

/-- Claim C7: when any of the three acquisitions (browser launch, context,
page) fails, `createSession` propagates the error with the registry state
unchanged, so no partial entry is registered and the would-be id stays
absent. -/
theorem c7_create_failure_all_or_nothing (env : Env) (st : St) (e : JsError)
    (st2 : St) (evs : List Ev)
    (hfail : createSession env st = (.error e, st2, evs)) :
    st2 = st ∧ (getSession st env.uuid = none → getSession st2 env.uuid = none) := by
  rcases hl : env.launch with el | b
  · simp only [createSession, hl, Prod.mk.injEq] at hfail
    obtain ⟨-, hst, -⟩ := hfail
    subst hst
    exact ⟨rfl, id⟩
  · rcases hctx : env.newContext b with ec | c
    · simp only [createSession, hl, hctx, Prod.mk.injEq] at hfail
      obtain ⟨-, hst, -⟩ := hfail
      subst hst
      exact ⟨rfl, id⟩
    · rcases hpg : env.newPage c with ep | p
      · simp only [createSession, hl, hctx, hpg, Prod.mk.injEq] at hfail
        obtain ⟨-, hst, -⟩ := hfail
        subst hst
        exact ⟨rfl, id⟩
      · simp [createSession, hl, hctx, hpg] at hfail

/-- Witness for C7: a failing `newPage` leaves the registry exactly as it
was. -/
theorem c7_witness :
    createSession newPageFailEnv st0 =
      (.error (.primitive 5), st0, [.launch, .newContext 1, .newPage 2]) ∧
    (st0 = st0 ∧ (getSession st0 "id-1" = none → getSession st0 "id-1" = none)) :=
  ⟨rfl, c7_create_failure_all_or_nothing newPageFailEnv st0 (.primitive 5) st0
    [.launch, .newContext 1, .newPage 2] rfl⟩

/-- Claim C8: a successful `createSession` registers, under the freshly
generated id, a record holding exactly the acquired browser, context and
single page, immediately retrievable via `getSession`; the id differs from
every id already present (freshness of uuidv4 is an assumption on the
external id generator, per the design's large-random-space argument). -/
theorem c8_create_success_registers (env : Env) (st : St) (b c p : Nat)
    (hb : env.launch = .ok b) (hc : env.newContext b = .ok c) (hp : env.newPage c = .ok p)
    (hfresh : getSession st env.uuid = none) :
    createSession env st =
      (.ok env.uuid, st ++ [(env.uuid, { browser := b, context := c, page := p })],
       [.launch, .newContext b, .newPage c]) ∧
    getSession (st ++ [(env.uuid, { browser := b, context := c, page := p })]) env.uuid =
      some { browser := b, context := c, page := p } ∧
    (∀ q ∈ st, q.1 ≠ env.uuid) := by
  refine ⟨?_, mapGet_append_fresh st env.uuid _ hfresh,
    mapGet_none_forall st env.uuid hfresh⟩
  simp only [createSession, hb, hc, hp]
  rw [mapSet_fresh st env.uuid _ hfresh]

/-- Witness for C8 on the empty registry. -/
theorem c8_witness :
    getSession ([] : St) "id-A" = none ∧
    createSession envA [] =
      (.ok "id-A", [("id-A", { browser := 10, context := 11, page := 12 })],
       [.launch, .newContext 10, .newPage 11]) ∧
    getSession [("id-A", { browser := 10, context := 11, page := 12 })] "id-A" =
      some { browser := 10, context := 11, page := 12 } := by
  refine ⟨rfl, ?_, ?_⟩
  · exact (c8_create_success_registers envA [] 10 11 12 rfl rfl rfl rfl).1
  · exact (c8_create_success_registers envA [] 10 11 12 rfl rfl rfl rfl).2.1

/-- Claim C1 is refuted: with a primitive failure (`goto` throws
`primitive 7`) whose teardown's `context.close()` also fails, the caller
receives the release error `primitive 9` instead of the original error, and
the session is still present in the registry afterwards. -/
theorem c1_counterexample :
    runPlaywright bothFailEnv st0 "s" .GOTO (some "http://unreachable.invalid") =
      (.error (.primitive 9), st0,
       [.goto 3 "http://unreachable.invalid", .endSessionCall "s", .contextClose 2]) ∧
    getSession
      ((runPlaywright bothFailEnv st0 "s" .GOTO (some "http://unreachable.invalid")).2.1)
      "s" = some sess0 :=
  ⟨rfl, rfl⟩

/-- Claim C1 (amended): for every method other than CLOSE, when the try
block raises a primitive error, the dispatcher invokes `endSession` exactly
once; if both release calls succeed it re-raises the original error
unchanged and the session is afterwards absent from the registry; if the
context release fails, the release error propagates to the caller instead
and the entry remains. -/
theorem c1_teardown_on_primitive_error (env : Env) (st : St) (id : String)
    (sess : Session) (method : Method) (instruction : Option String)
    (code : Nat) (evs1 : List Ev)
    (hs : getSession st id = some sess)
    (hm : method ≠ Method.CLOSE)
    (htry : tryPhase env st id sess.page method instruction =
      (.error (.primitive code), st, evs1)) :
    countEndCalls (runPlaywright env st id method instruction).2.2 = 1 ∧
    (env.contextClose sess.context = .ok () → env.browserClose sess.browser = .ok () →
      runPlaywright env st id method instruction =
        (.error (.primitive code), mapDelete st id,
         evs1 ++ [.endSessionCall id, .contextClose sess.context,
                  .browserClose sess.browser]) ∧
      getSession (mapDelete st id) id = none) ∧
    (∀ e2, env.contextClose sess.context = .error e2 →
      runPlaywright env st id method instruction =
        (.error e2, st, evs1 ++ [.endSessionCall id, .contextClose sess.context]) ∧
      getSession st id = some sess) := by
  have hcnt : countEndCalls evs1 = 0 := by
    have h := (tryPhase_state_trace env st id sess.page method instruction hm).2
    rw [htry] at h
    exact h
  exact run_err_teardown env st id sess method instruction (.primitive code) evs1
    hs htry hcnt

/-- Witness for the amended C1: a failing `goto` with healthy releases
re-raises `primitive 7` and empties the registry. -/
theorem c1_witness :
    getSession st0 "s" = some sess0 ∧
    tryPhase gotoFailEnv st0 "s" 3 .GOTO (some "http://unreachable.invalid") =
      (.error (.primitive 7), st0, [.goto 3 "http://unreachable.invalid"]) ∧
    runPlaywright gotoFailEnv st0 "s" .GOTO (some "http://unreachable.invalid") =
      (.error (.primitive 7), mapDelete st0 "s",
       [.goto 3 "http://unreachable.invalid"] ++
         [.endSessionCall "s", .contextClose 2, .browserClose 1]) := by
  refine ⟨rfl, rfl, ?_⟩
  exact ((c1_teardown_on_primitive_error gotoFailEnv st0 "s" sess0 .GOTO
    (some "http://unreachable.invalid") 7 [.goto 3 "http://unreachable.invalid"]
    rfl (by decide) rfl).2.1 rfl rfl).1

/-- Claim C2 is refuted: GOTO with the instruction omitted does raise the
missing-instruction error before any primitive runs, but the session is NOT
left intact — the catch-all teardown removes it from the registry. -/
theorem c2_counterexample :
    runPlaywright okEnv st0 "s" .GOTO none =
      (.error (.error "Missing URL in instruction"), [],
       [.endSessionCall "s", .contextClose 2, .browserClose 1]) ∧
    getSession ((runPlaywright okEnv st0 "s" .GOTO none).2.1) "s" = none :=
  ⟨rfl, rfl⟩

/-- Claim C2 (amended): for every method requiring an instruction, invoking
the dispatcher with the instruction omitted raises the method's
missing-instruction error before any primitive is invoked (the try-block
trace is empty and its state untouched), but the catch-all then invokes
`endSession` exactly once, so with healthy releases the session is removed
from the registry rather than left intact. -/
theorem c2_missing_instruction_teardown (env : Env) (st : St) (id : String)
    (sess : Session) (method : Method) (msg : String)
    (hs : getSession st id = some sess)
    (hmsg : missingMsg method = some msg) :
    tryPhase env st id sess.page method none = (.error (.error msg), st, []) ∧
    countEndCalls (runPlaywright env st id method none).2.2 = 1 ∧
    (env.contextClose sess.context = .ok () → env.browserClose sess.browser = .ok () →
      runPlaywright env st id method none =
        (.error (.error msg), mapDelete st id,
         [.endSessionCall id, .contextClose sess.context, .browserClose sess.browser]) ∧
      getSession (mapDelete st id) id = none) := by
  have htry : tryPhase env st id sess.page method none =
      (.error (.error msg), st, []) := by
    cases method <;>
      first
        | (simp only [missingMsg, Option.some.injEq] at hmsg; subst hmsg; rfl)
        | exact absurd hmsg (by simp [missingMsg])
  refine ⟨htry, ?_, ?_⟩
  · exact (run_err_teardown env st id sess method none (.error msg) [] hs htry rfl).1
  · intro hc hb
    exact (run_err_teardown env st id sess method none (.error msg) [] hs htry rfl).2.1
      hc hb

/-- Witness for the amended C2 with method ACT. -/
theorem c2_witness :
    getSession st0 "s" = some sess0 ∧
    missingMsg .ACT = some "Missing action instruction" ∧
    tryPhase okEnv st0 "s" 3 .ACT none =
      (.error (.error "Missing action instruction"), st0, []) ∧
    runPlaywright okEnv st0 "s" .ACT none =
      (.error (.error "Missing action instruction"), mapDelete st0 "s",
       [.endSessionCall "s", .contextClose 2, .browserClose 1]) := by
  refine ⟨rfl, rfl, ?_, ?_⟩
  · exact (c2_missing_instruction_teardown okEnv st0 "s" sess0 .ACT
      "Missing action instruction" rfl rfl).1
  · exact ((c2_missing_instruction_teardown okEnv st0 "s" sess0 .ACT
      "Missing action instruction" rfl rfl).2.2 rfl rfl).1

/-- Claim C6 is refuted: the non-empty ACT instruction `"hover #x"` matches
neither the click nor the type branch, so the dispatcher performs ZERO
primitive interactions (empty trace) and succeeds silently, contradicting
"exactly one primitive interaction for every non-empty ACT instruction". -/
theorem c6_counterexample :
    runPlaywright okEnv st0 "s" .ACT (some "hover #x") = (.ok .undef, st0, []) ∧
    "hover #x" ≠ "" :=
  ⟨rfl, by decide⟩

/-- Claim C6 (amended): for a live session and a non-empty ACT instruction,
the dispatcher performs exactly one click (on the instruction minus its
first `"click"` occurrence, trimmed) when the instruction starts with
`"click"`; exactly one fill (selector = second space-token, text = the
remaining tokens rejoined by spaces) when it starts with `"type"` but not
`"click"`; and otherwise performs zero primitive interactions and returns
successfully. -/
theorem c6_act_single_interaction (env : Env) (st : St) (id : String)
    (sess : Session) (instr : String)
    (_hs : getSession st id = some sess) (hne : instr ≠ "") :
    (jsStartsWith instr "click" = true →
      (tryPhase env st id sess.page .ACT (some instr)).2.2 =
        [.click sess.page (jsTrim (jsReplaceFirst instr "click" ""))]) ∧
    (jsStartsWith instr "click" = false → jsStartsWith instr "type" = true →
      (tryPhase env st id sess.page .ACT (some instr)).2.2 =
        [.fill sess.page (jsSplitOnSpace instr)[1]?
           (jsJoinSpace ((jsSplitOnSpace instr).drop 2))]) ∧
    (jsStartsWith instr "click" = false → jsStartsWith instr "type" = false →
      tryPhase env st id sess.page .ACT (some instr) = (.ok .undef, st, [])) := by
  have hfalsy : instrFalsy (some instr) = false := by
    simp [instrFalsy, hne]
  refine ⟨?_, ?_, ?_⟩
  · intro hclick
    simp only [tryPhase, hfalsy, Bool.false_eq_true, if_false, Option.getD_some, hclick,
      if_true]
    cases env.click sess.page (jsTrim (jsReplaceFirst instr "click" "")) <;> rfl
  · intro hclick htype
    simp only [tryPhase, hfalsy, Bool.false_eq_true, if_false, Option.getD_some, hclick,
      htype, if_true]
    cases env.fill sess.page (jsSplitOnSpace instr)[1]?
      (jsJoinSpace ((jsSplitOnSpace instr).drop 2)) <;> rfl
  · intro hclick htype
    simp only [tryPhase, hfalsy, Bool.false_eq_true, if_false, Option.getD_some, hclick,
      htype]

/-- Witness for the amended C6: one click for `"click #submit"`, one fill
for `"type #input Hello world"`. -/
theorem c6_witness :
    getSession st0 "s" = some sess0 ∧
    "click #submit" ≠ "" ∧
    (tryPhase okEnv st0 "s" 3 .ACT (some "click #submit")).2.2 = [.click 3 "#submit"] ∧
    (tryPhase okEnv st0 "s" 3 .ACT (some "type #input Hello world")).2.2 =
      [.fill 3 (some "#input") "Hello world"] := by
  refine ⟨rfl, by decide, ?_, ?_⟩
  · exact (c6_act_single_interaction okEnv st0 "s" sess0 "click #submit" rfl
      (by decide)).1 (by decide)
  · exact (c6_act_single_interaction okEnv st0 "s" sess0 "type #input Hello world" rfl
      (by decide)).2.1 (by decide) (by decide)

/-- Claim C10: an empty-string instruction is treated exactly like an
omitted one — for every method that requires an instruction, the dispatcher
result is identical and the try block raises the missing-instruction error
with no primitive invoked (empty trace). -/
theorem c10_empty_instruction_like_omitted (env : Env) (st : St) (id : String)
    (sess : Session) (method : Method) (msg : String)
    (hs : getSession st id = some sess)
    (hmsg : missingMsg method = some msg) :
    runPlaywright env st id method (some "") = runPlaywright env st id method none ∧
    tryPhase env st id sess.page method (some "") = (.error (.error msg), st, []) := by
  have heq : tryPhase env st id sess.page method (some "") =
      tryPhase env st id sess.page method none := by
    cases method <;> rfl
  constructor
  · simp only [runPlaywright, hs, heq]
  · rw [heq]
    cases method <;>
      first
        | (simp only [missingMsg, Option.some.injEq] at hmsg; subst hmsg; rfl)
        | exact absurd hmsg (by simp [missingMsg])

/-- Witness for C10 with method EXTRACT. -/
theorem c10_witness :
    getSession st0 "s" = some sess0 ∧
    missingMsg .EXTRACT = some "Missing extraction instruction" ∧
    runPlaywright okEnv st0 "s" .EXTRACT (some "") =
      runPlaywright okEnv st0 "s" .EXTRACT none ∧
    tryPhase okEnv st0 "s" 3 .EXTRACT (some "") =
      (.error (.error "Missing extraction instruction"), st0, []) := by
  refine ⟨rfl, rfl, ?_, ?_⟩
  · exact (c10_empty_instruction_like_omitted okEnv st0 "s" sess0 .EXTRACT
      "Missing extraction instruction" rfl rfl).1
  · exact (c10_empty_instruction_like_omitted okEnv st0 "s" sess0 .EXTRACT
      "Missing extraction instruction" rfl rfl).2

theorem all_filter_keep (l : List (String × Session)) (f g : String × Session → Bool)
    (h : l.all g = true) : (l.filter f).all g = true := by
  rw [List.all_eq_true] at h ⊢
  intro x hx
  exact h x (List.mem_of_mem_filter hx)

theorem registryInv_filter (st : St) (f : String × Session → Bool)
    (h : registryInv st = true) : registryInv (st.filter f) = true := by
  induction st with
  | nil => rfl
  | cons q rest ih =>
    rw [registryInv, Bool.and_eq_true] at h
    obtain ⟨hall, hrest⟩ := h
    rw [List.filter_cons]
    cases hf : f q
    · exact ih hrest
    · rw [if_pos rfl, registryInv, Bool.and_eq_true]
      exact ⟨all_filter_keep rest f _ hall, ih hrest⟩

theorem registryInv_append_fresh (st : St) (k : String) (v : Session)
    (hinv : registryInv st = true)
    (hkey : st.all (fun q => q.1 != k) = true)
    (hbr : st.all (fun q => q.2.browser != v.browser) = true) :
    registryInv (st ++ [(k, v)]) = true := by
  induction st with
  | nil => simp [registryInv]
  | cons q rest ih =>
    rw [registryInv, Bool.and_eq_true] at hinv
    obtain ⟨hall, hrest⟩ := hinv
    rw [List.all_cons, Bool.and_eq_true] at hkey hbr
    obtain ⟨hk1, hkey2⟩ := hkey
    obtain ⟨hb1, hbr2⟩ := hbr
    rw [List.cons_append, registryInv, Bool.and_eq_true]
    constructor
    · rw [List.all_append, Bool.and_eq_true]
      refine ⟨hall, ?_⟩
      simp only [List.all_cons, List.all_nil, Bool.and_true, Bool.and_eq_true]
      constructor
      · have hq : q.1 ≠ k := by simpa using hk1
        simpa using hq.symm
      · have hq : q.2.browser ≠ v.browser := by simpa using hb1
        simpa using hq.symm
    · exact ih hrest hkey2 hbr2

theorem getDebugInfo_state (env : Env) (st : St) (id : String) :
    (getDebugInfo env st id).2.1 = st := by
  rcases h : mapGet st id with _ | sess
  · simp [getDebugInfo, h]
  · rcases hshot : env.screenshot sess.page with e | shot <;>
      simp [getDebugInfo, h, hshot]

theorem endSession_state (env : Env) (st : St) (id : String) :
    (endSession env st id).2.1 = st ∨ (endSession env st id).2.1 = mapDelete st id := by
  rcases h : mapGet st id with _ | sess
  · left; simp [endSession, h]
  · rcases hc : env.contextClose sess.context with e | u
    · left; simp [endSession, h, hc]
    · rcases hb : env.browserClose sess.browser with e | v
      · left; simp [endSession, h, hc, hb]
      · right; simp [endSession, h, hc, hb]

theorem runOp_preserves (st : St) (op : Op)
    (hinv : registryInv st = true) (hok : opOk st op = true) :
    registryInv (runOp st op) = true := by
  cases op with
  | getS id => exact hinv
  | debug env id => rw [runOp, getDebugInfo_state]; exact hinv
  | endS env id =>
    rw [runOp]
    rcases endSession_state env st id with h | h <;> rw [h]
    · exact hinv
    · exact registryInv_filter st _ hinv
  | create env =>
    rw [runOp]
    rw [opOk, freshFor, Bool.and_eq_true] at hok
    obtain ⟨hkey, hbr⟩ := hok
    rcases hl : env.launch with e | b
    · simp only [createSession, hl]
      exact hinv
    · rw [hl] at hbr
      rcases hctx : env.newContext b with e | c

      · simp only [createSession, hl, hctx]
        exact hinv
      · rcases hpg : env.newPage c with e | p
        · simp only [createSession, hl, hctx, hpg]
          exact hinv
        · have hnone : mapGet st env.uuid = none :=
            mapGet_eq_none_of_all st env.uuid hkey
          simp only [createSession, hl, hctx, hpg]
          rw [mapSet_fresh st env.uuid _ hnone]
          exact registryInv_append_fresh st env.uuid
            { browser := b, context := c, page := p } hinv hkey hbr

/-- Claim C9: starting from a registry satisfying the invariant (distinct
ids, pairwise-distinct browser handles), every sequence of registry
operations preserves it, provided each `createSession` draws a fresh uuid
and a fresh browser handle from its external environment (the design's
assumption on uuidv4 and on browser launch); no operation copies a browser
handle into a second entry. -/
theorem c9_registry_invariant (st : St) (ops : List Op)
    (hinv : registryInv st = true) (hok : seqOk st ops = true) :
    registryInv (runOps st ops) = true := by
  induction ops generalizing st with
  | nil => exact hinv
  | cons op rest ih =>
    rw [seqOk, Bool.and_eq_true] at hok
    exact ih (runOp st op) (runOp_preserves st op hinv hok.1) hok.2

/-- Witness for C9: a concrete sequence with two creations, a lookup, a
debug call and a teardown keeps the invariant. -/
theorem c9_witness :
    registryInv ([] : St) = true ∧ seqOk [] opsW = true ∧
    registryInv (runOps [] opsW) = true :=
  ⟨rfl, rfl, c9_registry_invariant [] opsW rfl rfl⟩

end OpenOperator
